import Mathlib

/-!
Verification of the smoldot JavaScript client bridge
(src/wasm-node/javascript/src/internals/client.ts).

The TypeScript source is shallowly embedded: the shared mutable state object
of the start function becomes the structure ClientState, the event callback
branches and the public API operations become pure state-transition
functions that additionally emit a list of observable Action values
(invocations of stored callbacks and commands issued to the engine
instance), and JavaScript numbers are modelled by JsNum (NaN, the two
infinities, and finite rationals). Stored callbacks (addChain resolvers and
json-rpc waiters) are identified by natural numbers.
-/

namespace Smoldot

/-- JavaScript numbers as used by the option-sanitisation code of addChain:
NaN, the two infinities, or a finite value (modelled as a rational). -/
inductive JsNum where
  | nan
  | posInf
  | negInf
  | fin (q : ℚ)
deriving DecidableEq

/-- The floor of a rational, written with flooring integer division so that
it evaluates on concrete inputs by kernel reduction. -/
def ratFloor (q : ℚ) : ℤ := Int.fdiv q.num q.den

/-- The executable floor agrees with the mathematical floor. -/
theorem ratFloor_eq_floor (q : ℚ) : ratFloor q = ⌊q⌋ := by
  rw [Rat.floor_def]
  unfold ratFloor
  exact Int.fdiv_eq_ediv _ (Int.ofNat_nonneg q.den)

namespace JsNum

/-- Math.floor: NaN and the two infinities are fixed points, finite values
are floored to an integer. -/
def floor : JsNum → JsNum
  | nan => nan
  | posInf => posInf
  | negInf => negInf
  | fin q => fin ((ratFloor q : ℤ) : ℚ)

/-- The isNaN predicate. -/
def isNaN : JsNum → Bool
  | nan => true
  | _ => false

/-- The JavaScript comparison x <= y, false whenever either side is NaN. -/
def jsLe : JsNum → JsNum → Bool
  | nan, _ => false
  | _, nan => false
  | negInf, _ => true
  | _, negInf => false
  | _, posInf => true
  | posInf, _ => false
  | fin a, fin b => a ≤ b

/-- The JavaScript comparison x < y, false whenever either side is NaN. -/
def jsLt : JsNum → JsNum → Bool
  | nan, _ => false
  | _, nan => false
  | negInf, negInf => false
  | negInf, _ => true
  | _, negInf => false
  | posInf, _ => false
  | fin _, posInf => true
  | fin a, fin b => a < b

end JsNum

/-- Sanitisation of jsonRpcMaxPendingRequests (client.ts lines 483-490):
undefined maps to Infinity, the value is floored, non-positive or NaN
values are rejected with an AddChainError, and values above 0xffffffff are
clamped to 0xffffffff. -/
def sanitizeJsonRpcMaxPendingRequests (v : Option JsNum) : Except String JsNum :=
  let x := (v.getD JsNum.posInf).floor
  if x.jsLe (.fin 0) || x.isNaN then
    .error "Invalid value for `jsonRpcMaxPendingRequests`"
  else if (JsNum.fin 4294967295).jsLt x then
    .ok (.fin 4294967295)
  else
    .ok x

/-- Sanitisation of jsonRpcMaxSubscriptions (client.ts lines 493-500):
identical to the pending-requests rule except that only strictly negative
values are rejected, so zero is allowed. -/
def sanitizeJsonRpcMaxSubscriptions (v : Option JsNum) : Except String JsNum :=
  let x := (v.getD JsNum.posInf).floor
  if x.jsLt (.fin 0) || x.isNaN then
    .error "Invalid value for `jsonRpcMaxSubscriptions`"
  else if (JsNum.fin 4294967295).jsLt x then
    .ok (.fin 4294967295)
  else
    .ok x

/-- A JavaScript value as far as the typeof checks of addChain are
concerned: a string, a number, undefined, or anything else. -/
inductive JsValue where
  | str (s : String)
  | num (n : JsNum)
  | undef
  | obj
deriving DecidableEq

/-- The terminal error stored in the destroyed instance status: an
AlreadyDestroyedError (normal termination) or a CrashError. -/
inductive TerminalError where
  | alreadyDestroyed
  | crash (message : String)
deriving DecidableEq

/-- Errors thrown, or used to reject promises, by the public API of
client.ts: AlreadyDestroyedError, CrashError, JsonRpcDisabledError,
QueueFullError, AddChainError, or a plain Error with the given message. -/
inductive ThrownError where
  | alreadyDestroyed
  | crash (message : String)
  | jsonRpcDisabled
  | queueFull
  | addChainErr (message : String)
  | generic (message : String)
deriving DecidableEq

/-- Throwing state.instance.error: the stored terminal error is rethrown as
an AlreadyDestroyedError or a CrashError. -/
def TerminalError.toThrown : TerminalError → ThrownError
  | .alreadyDestroyed => .alreadyDestroyed
  | .crash m => .crash m

/-- The status of state.instance (client.ts lines 240-245). -/
inductive InstanceStatus where
  | notCreated
  | notReady
  | ready
  | destroyed (error : TerminalError)
deriving DecidableEq

/-- The outcome delivered by an add-chain-result event and passed to the
popped resolver. -/
inductive AddChainOutcome where
  | success (chainId : ℕ)
  | failure (error : String)
deriving DecidableEq

/-- Observable effects performed by the event callback and the API
operations: Connection.reset invocations, invocations of addChain
resolvers, wake-ups of json-rpc waiters, the invocation of the one-shot
executor-shutdown-or-panic callback, and the removeChain and
shutdownExecutor commands sent to the engine instance. -/
inductive Action where
  | connReset (connectionId : ℕ)
  | resolveAddChain (resolverId : ℕ) (outcome : AddChainOutcome)
  | wakeWaiter (waiterId : ℕ)
  | invokeShutdownCallback
  | removeChainCmd (chainId : ℕ)
  | shutdownExecutorCmd
deriving DecidableEq

/-- The shared state object of client.ts (lines 240-269). Callbacks are
modelled by numeric identifiers: addChainResults holds the resolver ids of
pending addChain calls in FIFO order, each entry of chains maps a chain id
to the waiter ids of the callers suspended in nextJsonRpcResponse,
connections holds the ids present in the connection table, and chainIds is
the weak map from chain handle (identified by a handle id) to chain id.
The boolean records whether onExecutorShutdownOrWasmPanic currently holds a
real resume callback registered by terminate rather than the no-op. -/
structure ClientState where
  instanceStatus : InstanceStatus
  chainIds : List (ℕ × ℕ)
  connections : List ℕ
  addChainResults : List ℕ
  onExecutorShutdownOrWasmPanicSet : Bool
  chains : List (ℕ × List ℕ)
deriving DecidableEq

/-- Decidable equality for Except, so that the model's operations can be
evaluated on concrete inputs with decide. -/
instance {ε α : Type} [DecidableEq ε] [DecidableEq α] :
    DecidableEq (Except ε α) := fun x y =>
  match x, y with
  | .error a, .error b =>
      if h : a = b then .isTrue (h ▸ rfl)
      else .isFalse (fun hh => Except.noConfusion hh h)
  | .error _, .ok _ => .isFalse (fun hh => Except.noConfusion hh)
  | .ok _, .error _ => .isFalse (fun hh => Except.noConfusion hh)
  | .ok a, .ok b =>
      if h : a = b then .isTrue (h ▸ rfl)
      else .isFalse (fun hh => Except.noConfusion hh h)

/-- Lookup in an association list, as Map.get / WeakMap.get. -/
def assocLookup {α : Type} (l : List (ℕ × α)) (k : ℕ) : Option α :=
  (l.find? (fun p => p.1 == k)).map (fun p => p.2)

/-- Map.set: a JS map updates the existing entry in place when the key is
present and appends a new entry otherwise. -/
def assocSet {α : Type} (l : List (ℕ × α)) (k : ℕ) (v : α) : List (ℕ × α) :=
  if (l.find? (fun p => p.1 == k)).isSome then
    l.map (fun p => if p.1 == k then (k, v) else p)
  else
    l ++ [(k, v)]

/-- Map.delete / WeakMap.delete: a JS map holds at most one entry per key,
so deletion is modelled by filtering the key out. -/
def assocDelete {α : Type} (l : List (ℕ × α)) (k : ℕ) : List (ℕ × α) :=
  l.filter (fun p => p.1 != k)

/-- The wasm-panic branch of the event callback (client.ts lines 274-308):
set the instance status to destroyed with a CrashError holding the event's
message, reset and clear every connection in the table, fall every pending
addChain resolver with a Smoldot-has-crashed failure, wake and clear every
chain's json-rpc waiters, clear the chain registry, and invoke the one-shot
executor-shutdown-or-panic callback (which is then reset to the no-op). The
weak map chainIds is not touched by this branch. -/
def processWasmPanic (st : ClientState) (message : String) :
    ClientState × List Action :=
  ({ instanceStatus := .destroyed (.crash message)
     chainIds := st.chainIds
     connections := []
     addChainResults := []
     onExecutorShutdownOrWasmPanicSet := false
     chains := [] },
   st.connections.map Action.connReset
     ++ st.addChainResults.map
          (fun r => Action.resolveAddChain r (.failure "Smoldot has crashed"))
     ++ (st.chains.map (fun c => c.2.map Action.wakeWaiter)).flatten
     ++ [Action.invokeShutdownCallback])

/-- The executor-shutdown branch of the event callback (client.ts lines
309-314): invoke the one-shot callback and reset it to the no-op. -/
def processExecutorShutdown (st : ClientState) : ClientState × List Action :=
  ({ st with onExecutorShutdownOrWasmPanicSet := false },
   [Action.invokeShutdownCallback])

/-- The add-chain-result branch of the event callback (client.ts lines
319-321): pop the oldest pending resolver (Array.shift, FIFO) and invoke it
with the event's outcome. The source asserts non-emptiness of the ledger
with a non-null assertion; an empty ledger is an engine-protocol violation
and is modelled as resolving nothing. -/
def processAddChainResult (st : ClientState) (outcome : AddChainOutcome) :
    ClientState × List Action :=
  match st.addChainResults with
  | [] => (st, [])
  | r :: rest =>
      ({ st with addChainResults := rest }, [Action.resolveAddChain r outcome])

/-- The json-rpc-responses-non-empty branch of the event callback (client.ts
lines 323-330): wake and clear every waiter of the named chain, in order.
The source dereferences the chain entry with a non-null assertion; an
absent chain is an internal fault, modelled as none, and wakes nobody. -/
def processJsonRpcResponsesNonEmpty (st : ClientState) (chainId : ℕ) :
    Option (ClientState × List Action) :=
  match assocLookup st.chains chainId with
  | none => none
  | some waiters =>
      some ({ st with chains := assocSet st.chains chainId [] },
            waiters.map Action.wakeWaiter)

/-- The continuation run when the engine instance construction completes
(client.ts lines 418-426 and 443-451): when the instance was destroyed in
the meantime the late success is dropped, otherwise the status becomes
ready. -/
def initReadyContinuation (st : ClientState) : ClientState :=
  match st.instanceStatus with
  | .destroyed _ => st
  | _ => { st with instanceStatus := .ready }

/-- The fields of AddChainOptions that addChain inspects. The entries of
potentialRelayChains are the handle ids of earlier-returned chain handles
(none models an undefined field); chainSpec and databaseContent are
arbitrary JavaScript values because addChain type-checks them at run time;
disableJsonRpc is the boolean the source obtains with a double negation. -/
structure AddChainOptions where
  chainSpec : JsValue
  databaseContent : JsValue
  potentialRelayChains : Option (List ℕ)
  disableJsonRpc : Bool
  jsonRpcMaxPendingRequests : Option JsNum
  jsonRpcMaxSubscriptions : Option JsNum
deriving DecidableEq

/-- The potential-relay-chains loop of addChain (client.ts lines 470-480):
look each handle up in the weak map chainIds and silently skip the handles
that no longer map to a live chain id. -/
def computeRelayChainIds (chainIds : List (ℕ × ℕ)) : List ℕ → List ℕ
  | [] => []
  | h :: rest =>
      match assocLookup chainIds h with
      | none => computeRelayChainIds chainIds rest
      | some id => id :: computeRelayChainIds chainIds rest

/-- Validation and defaulting of databaseContent (client.ts lines 502-504
and 510): a defined non-string is rejected, undefined defaults to the empty
string. -/
def sanitizeDatabaseContent : JsValue → Except String String
  | .str s => .ok s
  | .undef => .ok ""
  | _ => .error "`databaseContent` is not a string"

/-- The arguments of the create-chain command issued to the engine instance
(client.ts lines 508-515). -/
structure CreateChainCmd where
  chainSpec : String
  databaseContent : String
  potentialRelayChains : List ℕ
  disableJsonRpc : Bool
  jsonRpcMaxPendingRequests : JsNum
  jsonRpcMaxSubscriptions : JsNum
deriving DecidableEq

/-- The synchronous part of addChain once the initial await has resolved
(client.ts lines 456-515): the instance-status checks, the validations in
source order (chainSpec, relay chains, jsonRpcMaxPendingRequests,
jsonRpcMaxSubscriptions, databaseContent), then the append of the resolver
to the FIFO ledger together with the create-chain command. On error the
state is returned unchanged and no command is issued; resolverId identifies
the resolver of the promise the call will await. -/
def addChainSync (st : ClientState) (opts : AddChainOptions) (resolverId : ℕ) :
    ClientState × Except ThrownError CreateChainCmd :=
  match st.instanceStatus with
  | .destroyed e => (st, .error e.toThrown)
  | .notCreated => (st, .error (.generic ""))
  | .notReady => (st, .error (.generic ""))
  | .ready =>
    match opts.chainSpec with
    | .str spec =>
      let relayIds :=
        computeRelayChainIds st.chainIds (opts.potentialRelayChains.getD [])
      match sanitizeJsonRpcMaxPendingRequests opts.jsonRpcMaxPendingRequests with
      | .error m => (st, .error (.addChainErr m))
      | .ok maxPending =>
        match sanitizeJsonRpcMaxSubscriptions opts.jsonRpcMaxSubscriptions with
        | .error m => (st, .error (.addChainErr m))
        | .ok maxSubs =>
          match sanitizeDatabaseContent opts.databaseContent with
          | .error m => (st, .error (.addChainErr m))
          | .ok db =>
              ({ st with addChainResults := st.addChainResults ++ [resolverId] },
               .ok { chainSpec := spec
                     databaseContent := db
                     potentialRelayChains := relayIds
                     disableJsonRpc := opts.disableJsonRpc
                     jsonRpcMaxPendingRequests := maxPending
                     jsonRpcMaxSubscriptions := maxSubs })
    | _ => (st, .error (.generic "Chain specification must be a string"))

/-- The continuation of addChain after a successful outcome (client.ts
lines 521-525 and 584): register the chain with an empty waiter list and
bind the new handle to the chain id in the weak map. -/
def addChainSuccessContinuation (st : ClientState) (chainId : ℕ)
    (handleId : ℕ) : ClientState :=
  { st with chains := assocSet st.chains chainId []
            chainIds := assocSet st.chainIds handleId chainId }

/-- Chain.sendJsonRpc (client.ts lines 528-544), with the checks in source
order: destroyed status, internal status fault, removed chain, disabled
JSON-RPC, then the status code the engine returns for the request
(requestRetVal): 0 is success, 1 is QueueFullError, anything else is an
internal fault. chainId and disableJsonRpc are captured by the handle. -/
def sendJsonRpc (st : ClientState) (chainId : ℕ) (disableJsonRpc : Bool)
    (requestRetVal : ℕ) : Except ThrownError Unit :=
  match st.instanceStatus with
  | .destroyed e => .error e.toThrown
  | .notCreated => .error (.generic "")
  | .notReady => .error (.generic "")
  | .ready =>
    if (assocLookup st.chains chainId).isNone then .error .alreadyDestroyed
    else if disableJsonRpc then .error .jsonRpcDisabled
    else
      match requestRetVal with
      | 0 => .ok ()
      | 1 => .error .queueFull
      | r =>
          .error (.generic
            ("Internal error: unknown json_rpc_send error code: " ++ toString r))

/-- The possible outcomes of one iteration of the nextJsonRpcResponse
loop: a thrown error (the promise rejects), a returned message, or a
suspension after registering as a waiter. -/
inductive NextIterResult where
  | fail (e : ThrownError)
  | message (m : String)
  | suspend
deriving DecidableEq

/-- One iteration of the nextJsonRpcResponse loop (client.ts lines
546-564), with the checks in source order: removed chain, disabled
JSON-RPC, destroyed status, internal status fault, then a non-blocking pop
of the engine's response queue for this chain (queue); when the queue is
empty the caller registers waiterId at the back of the chain's waiter list
and suspends until woken, after which the loop runs again. Returns the
iteration outcome, the updated client state and the updated queue. -/
def nextJsonRpcResponseIter (st : ClientState) (queue : List String)
    (chainId : ℕ) (disableJsonRpc : Bool) (waiterId : ℕ) :
    NextIterResult × ClientState × List String :=
  match assocLookup st.chains chainId with
  | none => (.fail .alreadyDestroyed, st, queue)
  | some waiters =>
    if disableJsonRpc then (.fail .jsonRpcDisabled, st, queue)
    else
      match st.instanceStatus with
      | .destroyed e => (.fail e.toThrown, st, queue)
      | .notCreated => (.fail (.generic ""), st, queue)
      | .notReady => (.fail (.generic ""), st, queue)
      | .ready =>
        match queue with
        | m :: rest => (.message m, st, rest)
        | [] =>
            (.suspend,
             { st with chains := assocSet st.chains chainId (waiters ++ [waiterId]) },
             [])

/-- Chain.remove (client.ts lines 567-581), with the checks in source
order: destroyed status, internal status fault, removed chain; then detach
the handle from the weak map, wake every waiter of the chain in order,
delete the chain from the registry, and issue the remove-chain command.
handleId identifies the handle closure (newChain) on which remove was
called. -/
def removeChain (st : ClientState) (handleId : ℕ) (chainId : ℕ) :
    Except ThrownError (ClientState × List Action) :=
  match st.instanceStatus with
  | .destroyed e => .error e.toThrown
  | .notCreated => .error (.generic "")
  | .notReady => .error (.generic "")
  | .ready =>
    match assocLookup st.chains chainId with
    | none => .error .alreadyDestroyed
    | some waiters =>
        .ok ({ st with chainIds := assocDelete st.chainIds handleId
                       chains := assocDelete st.chains chainId },
             waiters.map Action.wakeWaiter ++ [Action.removeChainCmd chainId])

/-- The first half of terminate (client.ts lines 587-597), up to the
suspension that awaits the executor-shutdown event: the instance-status
checks, the shutdownExecutor command, and the registration of the one-shot
resume callback. -/
def terminateFirstHalf (st : ClientState) :
    Except ThrownError (ClientState × List Action) :=
  match st.instanceStatus with
  | .destroyed e => .error e.toThrown
  | .notCreated => .error (.generic "")
  | .notReady => .error (.generic "")
  | .ready =>
      .ok ({ st with onExecutorShutdownOrWasmPanicSet := true },
           [Action.shutdownExecutorCmd])

/-- The second half of terminate (client.ts lines 599-615), resumed once
the executor-shutdown or wasm-panic callback fires: transition to destroyed
with an AlreadyDestroyedError only when the status is still ready (so a
concurrently-set crash error is not overwritten), then reset and clear the
connections, fail every pending addChain resolver, and wake and clear every
chain's waiters. -/
def terminateSecondHalf (st : ClientState) : ClientState × List Action :=
  let st1 :=
    match st.instanceStatus with
    | .ready => { st with instanceStatus := .destroyed .alreadyDestroyed }
    | _ => st
  ({ st1 with connections := [], addChainResults := [], chains := [] },
   st1.connections.map Action.connReset
     ++ st1.addChainResults.map
          (fun r =>
            Action.resolveAddChain r (.failure "Client.terminate() has been called"))
     ++ (st1.chains.map (fun c => c.2.map Action.wakeWaiter)).flatten)

/-- Delivery of a sequence of add-chain-result events, one event at a time
in order, accumulating the emitted resolver invocations. -/
def deliverAddChainResults (st : ClientState) :
    List AddChainOutcome → ClientState × List Action
  | [] => (st, [])
  | o :: os =>
      let p := processAddChainResult st o
      let q := deliverAddChainResults p.1 os
      (q.1, p.2 ++ q.2)

/-- The messages returned by n successive iterations of the
nextJsonRpcResponse loop started on queue q, stopping at the first
iteration that does not return a message. -/
def iterMessages (st : ClientState) (chainId : ℕ) (disableJsonRpc : Bool) :
    ℕ → List String → List String
  | 0, _ => []
  | n + 1, q =>
      match nextJsonRpcResponseIter st q chainId disableJsonRpc 0 with
      | (.message m, st2, q2) => m :: iterMessages st2 chainId disableJsonRpc n q2
      | _ => []

/-! Theorems. -/

/-- Delivering add-chain-result events resolves the pending ledger entries
strictly in ledger order, one entry per event, and leaves the remaining
suffix of the ledger pending. -/
theorem deliverAddChainResults_spec (outcomes : List AddChainOutcome) :
    ∀ st : ClientState, outcomes.length ≤ st.addChainResults.length →
      (deliverAddChainResults st outcomes).2
        = List.zipWith (fun r o => Action.resolveAddChain r o)
            st.addChainResults outcomes
      ∧ (deliverAddChainResults st outcomes).1.addChainResults
        = st.addChainResults.drop outcomes.length := by
  induction outcomes with
  | nil =>
      intro st _
      simp [deliverAddChainResults]
  | cons o os ih =>
      intro st h
      match hl : st.addChainResults with
      | [] => rw [hl] at h; simp at h
      | r :: rest =>
          have hlen : os.length ≤ rest.length := by
            rw [hl] at h; simpa using h
          have hih := ih { st with addChainResults := rest } hlen
          simp only [deliverAddChainResults, processAddChainResult, hl] at hih ⊢
          simp [hih.1, hih.2]

/-- A successful addChainSync touches the state only by appending its
resolver at the back of the FIFO ledger. -/
theorem addChainSync_ok_state (st : ClientState) (opts : AddChainOptions)
    (resolverId : ℕ) (cmd : CreateChainCmd)
    (hok : (addChainSync st opts resolverId).2 = .ok cmd) :
    (addChainSync st opts resolverId).1
      = { st with addChainResults := st.addChainResults ++ [resolverId] } := by
  unfold addChainSync at hok ⊢
  cases hst : st.instanceStatus <;> simp only [hst] at hok ⊢ <;> try simp at hok
  cases hcs : opts.chainSpec <;> simp only [hcs] at hok ⊢ <;> try simp at hok
  cases hmp : sanitizeJsonRpcMaxPendingRequests opts.jsonRpcMaxPendingRequests <;>
    simp only [hmp] at hok ⊢ <;> try simp at hok
  cases hms : sanitizeJsonRpcMaxSubscriptions opts.jsonRpcMaxSubscriptions <;>
    simp only [hms] at hok ⊢ <;> try simp at hok
  cases hdb : sanitizeDatabaseContent opts.databaseContent <;>
    simp only [hdb] at hok ⊢
  simp at hok

/-- C1: for every sequence of addChain calls whose create-chain commands
are issued before any outcome arrives, the add-chain-result events are
matched to the ledger entries strictly in issuance order: the i-th
delivered outcome resolves the i-th ledger entry, whatever chain id the
outcome carries and however the events are timed, and every successful
addChainSync appends its resolver at the back of the ledger. -/
theorem addChain_results_matched_fifo (st : ClientState)
    (outcomes : List AddChainOutcome)
    (h : outcomes.length ≤ st.addChainResults.length) :
    (deliverAddChainResults st outcomes).2
      = List.zipWith (fun r o => Action.resolveAddChain r o)
          st.addChainResults outcomes
    ∧ (deliverAddChainResults st outcomes).1.addChainResults
      = st.addChainResults.drop outcomes.length
    ∧ ∀ opts resolverId cmd,
        (addChainSync st opts resolverId).2 = .ok cmd →
        (addChainSync st opts resolverId).1.addChainResults
          = st.addChainResults ++ [resolverId] := by
  refine ⟨(deliverAddChainResults_spec outcomes st h).1,
          (deliverAddChainResults_spec outcomes st h).2, ?_⟩
  intro opts resolverId cmd hok
  rw [addChainSync_ok_state st opts resolverId cmd hok]

/-- Witness for C1 at a concrete ledger and outcome sequence. -/
theorem addChain_results_matched_fifo_witness :
    (deliverAddChainResults
        { instanceStatus := .ready, chainIds := [], connections := [],
          addChainResults := [10, 11, 12],
          onExecutorShutdownOrWasmPanicSet := false, chains := [] }
        [.success 7, .failure "nope"]).2
      = [.resolveAddChain 10 (.success 7), .resolveAddChain 11 (.failure "nope")] := by
  have h := addChain_results_matched_fifo
    { instanceStatus := .ready, chainIds := [], connections := [],
      addChainResults := [10, 11, 12],
      onExecutorShutdownOrWasmPanicSet := false, chains := [] }
    [.success 7, .failure "nope"] (by decide)
  rw [h.1]
  rfl

/-- C4: an addChain call whose chainSpec is not a string rejects, with the
descriptive chain-specification error whenever the instance is ready, and
in every status the state is unchanged (no entry is appended to the
pending-request ledger) and no create-chain command is issued (the result
carries an error instead of a command). -/
theorem addChain_nonstring_chainSpec_rejects (st : ClientState)
    (opts : AddChainOptions) (resolverId : ℕ)
    (hspec : ∀ s, opts.chainSpec ≠ .str s) :
    (st.instanceStatus = .ready →
       addChainSync st opts resolverId
         = (st, .error (.generic "Chain specification must be a string")))
    ∧ (addChainSync st opts resolverId).1 = st
    ∧ ∃ e, (addChainSync st opts resolverId).2 = .error e := by
  unfold addChainSync
  cases hst : st.instanceStatus <;>
    cases hcs : opts.chainSpec <;> simp_all

/-- Witness for C4: a numeric chain spec on a ready instance. -/
theorem addChain_nonstring_chainSpec_rejects_witness :
    addChainSync
        { instanceStatus := .ready, chainIds := [], connections := [],
          addChainResults := [], onExecutorShutdownOrWasmPanicSet := false,
          chains := [] }
        { chainSpec := .num (.fin 123), databaseContent := .undef,
          potentialRelayChains := none, disableJsonRpc := false,
          jsonRpcMaxPendingRequests := none, jsonRpcMaxSubscriptions := none }
        0
      = ({ instanceStatus := .ready, chainIds := [], connections := [],
           addChainResults := [], onExecutorShutdownOrWasmPanicSet := false,
           chains := [] },
         .error (.generic "Chain specification must be a string")) :=
  (addChain_nonstring_chainSpec_rejects _ _ 0
    (fun _ h => JsValue.noConfusion h)).1 rfl

/-- C10: addChain also validates databaseContent: once the earlier
validations pass, a defined non-string databaseContent rejects with the
dedicated AddChainError and leaves the state unchanged (no command is
issued), while an undefined databaseContent leads to a create-chain command
carrying the empty string in its place. -/
theorem addChain_databaseContent_validation (st : ClientState)
    (opts : AddChainOptions) (resolverId : ℕ) (spec : String) (mp ms : JsNum)
    (hready : st.instanceStatus = .ready)
    (hspec : opts.chainSpec = .str spec)
    (hmp : sanitizeJsonRpcMaxPendingRequests opts.jsonRpcMaxPendingRequests = .ok mp)
    (hms : sanitizeJsonRpcMaxSubscriptions opts.jsonRpcMaxSubscriptions = .ok ms) :
    ((opts.databaseContent ≠ .undef ∧ ∀ s, opts.databaseContent ≠ .str s) →
       addChainSync st opts resolverId
         = (st, .error (.addChainErr "`databaseContent` is not a string")))
    ∧ (opts.databaseContent = .undef →
       ∃ cmd, addChainSync st opts resolverId
           = ({ st with addChainResults := st.addChainResults ++ [resolverId] },
              .ok cmd)
         ∧ cmd.databaseContent = "") := by
  unfold addChainSync
  simp only [hready, hspec, hmp, hms]
  cases hdb : opts.databaseContent <;> simp_all [sanitizeDatabaseContent]

/-- Witness for C10: a numeric databaseContent and an undefined one. -/
theorem addChain_databaseContent_validation_witness :
    addChainSync
        { instanceStatus := .ready, chainIds := [], connections := [],
          addChainResults := [], onExecutorShutdownOrWasmPanicSet := false,
          chains := [] }
        { chainSpec := .str "X", databaseContent := .num (.fin 1),
          potentialRelayChains := none, disableJsonRpc := false,
          jsonRpcMaxPendingRequests := none, jsonRpcMaxSubscriptions := none }
        0
      = ({ instanceStatus := .ready, chainIds := [], connections := [],
           addChainResults := [], onExecutorShutdownOrWasmPanicSet := false,
           chains := [] },
         .error (.addChainErr "`databaseContent` is not a string")) :=
  (addChain_databaseContent_validation _ _ 0 "X" (.fin 4294967295)
      (.fin 4294967295) rfl rfl (by decide) (by decide)).1
    ⟨fun h => JsValue.noConfusion h, fun s h => JsValue.noConfusion h⟩

/-- A successful pending-requests sanitisation yields an integer between 1
and the unsigned 32-bit maximum. -/
theorem sanitizePending_ok_bounds (v : Option JsNum) (r : JsNum)
    (h : sanitizeJsonRpcMaxPendingRequests v = .ok r) :
    ∃ z : ℤ, r = .fin (z : ℚ) ∧ 1 ≤ z ∧ z ≤ 4294967295 := by
  unfold sanitizeJsonRpcMaxPendingRequests at h
  cases hv : v.getD JsNum.posInf <;> rw [hv] at h
  case nan => simp [JsNum.floor, JsNum.jsLe, JsNum.isNaN] at h
  case posInf =>
      simp [JsNum.floor, JsNum.jsLe, JsNum.isNaN, JsNum.jsLt] at h
      exact ⟨4294967295, by rw [← h]; norm_num⟩
  case negInf => simp [JsNum.floor, JsNum.jsLe, JsNum.isNaN] at h
  case fin q =>
      by_cases hq : ((ratFloor q : ℤ) : ℚ) ≤ 0
      · simp [JsNum.floor, JsNum.jsLe, JsNum.isNaN, hq] at h
      · by_cases hq2 : (4294967295 : ℚ) < ((ratFloor q : ℤ) : ℚ)
        · simp [JsNum.floor, JsNum.jsLe, JsNum.isNaN, JsNum.jsLt, hq, hq2] at h
          exact ⟨4294967295, by rw [← h]; norm_num⟩
        · simp [JsNum.floor, JsNum.jsLe, JsNum.isNaN, JsNum.jsLt, hq, hq2] at h
          refine ⟨ratFloor q, by rw [← h], ?_, ?_⟩
          · have : (0 : ℚ) < ((ratFloor q : ℤ) : ℚ) := lt_of_not_le hq
            exact_mod_cast this
          · have : ((ratFloor q : ℤ) : ℚ) ≤ 4294967295 := le_of_not_lt hq2
            exact_mod_cast this

/-- A successful subscriptions sanitisation yields an integer between 0 and
the unsigned 32-bit maximum. -/
theorem sanitizeSubscriptions_ok_bounds (v : Option JsNum) (r : JsNum)
    (h : sanitizeJsonRpcMaxSubscriptions v = .ok r) :
    ∃ z : ℤ, r = .fin (z : ℚ) ∧ 0 ≤ z ∧ z ≤ 4294967295 := by
  unfold sanitizeJsonRpcMaxSubscriptions at h
  cases hv : v.getD JsNum.posInf <;> rw [hv] at h
  case nan => simp [JsNum.floor, JsNum.jsLt, JsNum.isNaN] at h
  case posInf =>
      simp [JsNum.floor, JsNum.jsLe, JsNum.isNaN, JsNum.jsLt] at h
      exact ⟨4294967295, by rw [← h]; norm_num⟩
  case negInf => simp [JsNum.floor, JsNum.jsLt, JsNum.isNaN] at h
  case fin q =>
      by_cases hq : ((ratFloor q : ℤ) : ℚ) < 0
      · simp [JsNum.floor, JsNum.jsLt, JsNum.isNaN, hq] at h
      · by_cases hq2 : (4294967295 : ℚ) < ((ratFloor q : ℤ) : ℚ)
        · simp [JsNum.floor, JsNum.jsLe, JsNum.isNaN, JsNum.jsLt, hq, hq2] at h
          exact ⟨4294967295, by rw [← h]; norm_num⟩
        · simp [JsNum.floor, JsNum.jsLe, JsNum.isNaN, JsNum.jsLt, hq, hq2] at h
          refine ⟨ratFloor q, by rw [← h], ?_, ?_⟩
          · have : (0 : ℚ) ≤ ((ratFloor q : ℤ) : ℚ) := le_of_not_lt hq
            exact_mod_cast this
          · have : ((ratFloor q : ℤ) : ℚ) ≤ 4294967295 := le_of_not_lt hq2
            exact_mod_cast this

/-- C5: jsonRpcMaxPendingRequests is, after flooring, a positive integer
not exceeding the unsigned 32-bit maximum, with undefined or Infinity
mapping to that maximum; a value whose floor is non-positive or NaN (for
example -1) is rejected with the invalid-value error, and such a rejection
reaches the caller as an AddChainError before any create-chain command is
issued or any state change happens. jsonRpcMaxSubscriptions follows the
same rule except that zero is allowed. -/
theorem jsonRpc_limits_sanitization (v : Option JsNum) (w : JsNum) :
    (∀ r, sanitizeJsonRpcMaxPendingRequests v = .ok r →
       ∃ z : ℤ, r = .fin (z : ℚ) ∧ 1 ≤ z ∧ z ≤ 4294967295)
    ∧ sanitizeJsonRpcMaxPendingRequests none = .ok (.fin 4294967295)
    ∧ sanitizeJsonRpcMaxPendingRequests (some .posInf) = .ok (.fin 4294967295)
    ∧ ((w.floor.jsLe (.fin 0) || w.floor.isNaN) = true →
        sanitizeJsonRpcMaxPendingRequests (some w)
          = .error "Invalid value for `jsonRpcMaxPendingRequests`")
    ∧ sanitizeJsonRpcMaxPendingRequests (some (.fin (-1)))
        = .error "Invalid value for `jsonRpcMaxPendingRequests`"
    ∧ (∀ r, sanitizeJsonRpcMaxSubscriptions v = .ok r →
       ∃ z : ℤ, r = .fin (z : ℚ) ∧ 0 ≤ z ∧ z ≤ 4294967295)
    ∧ sanitizeJsonRpcMaxSubscriptions none = .ok (.fin 4294967295)
    ∧ sanitizeJsonRpcMaxSubscriptions (some (.fin 0)) = .ok (.fin 0)
    ∧ (∀ st opts resolverId m,
        st.instanceStatus = .ready → (∃ s, opts.chainSpec = .str s) →
        sanitizeJsonRpcMaxPendingRequests opts.jsonRpcMaxPendingRequests
          = .error m →
        addChainSync st opts resolverId = (st, .error (.addChainErr m))) := by
  refine ⟨fun r => sanitizePending_ok_bounds v r, by decide, by decide, ?_,
          by decide, fun r => sanitizeSubscriptions_ok_bounds v r, by decide,
          by decide, ?_⟩
  · intro hbad
    unfold sanitizeJsonRpcMaxPendingRequests
    simp [hbad]
  · intro st opts resolverId m hready ⟨s, hspec⟩ hm
    unfold addChainSync
    simp only [hready, hspec, hm]

/-- Witness for C5 at concrete inputs: floor of -1 is non-positive, so -1
is rejected, and a fractional in-range value is accepted after flooring. -/
theorem jsonRpc_limits_sanitization_witness :
    sanitizeJsonRpcMaxPendingRequests (some (.fin (-1)))
        = .error "Invalid value for `jsonRpcMaxPendingRequests`"
    ∧ (∃ z : ℤ, JsNum.fin ((2 : ℤ) : ℚ) = .fin (z : ℚ) ∧ 1 ≤ z ∧ z ≤ 4294967295) := by
  refine ⟨(jsonRpc_limits_sanitization none (.fin (-1))).2.2.2.1 (by decide), ?_⟩
  exact (jsonRpc_limits_sanitization (some (.fin (mkRat 5 2))) .nan).1
    (.fin ((2 : ℤ) : ℚ)) (by decide)

/-- The relay-chain loop computes exactly the filterMap of the weak-map
lookup over the handle list. -/
theorem computeRelayChainIds_eq_filterMap (chainIds : List (ℕ × ℕ)) :
    ∀ handles : List ℕ,
      computeRelayChainIds chainIds handles
        = handles.filterMap (fun h => assocLookup chainIds h) := by
  intro handles
  induction handles with
  | nil => simp [computeRelayChainIds]
  | cons h rest ih =>
      cases hl : assocLookup chainIds h <;>
        simp [computeRelayChainIds, hl, ih]

/-- Changing only the potentialRelayChains option leaves the resulting
state and the error/success shape of addChainSync unchanged; the command,
when produced, differs only in its relay-chain id list. -/
theorem addChainSync_relay_map (st : ClientState) (opts : AddChainOptions)
    (resolverId : ℕ) (p : Option (List ℕ)) :
    addChainSync st { opts with potentialRelayChains := p } resolverId
      = ((addChainSync st { opts with potentialRelayChains := none } resolverId).1,
         Except.map
           (fun cmd => { cmd with potentialRelayChains :=
               computeRelayChainIds st.chainIds (p.getD []) })
           (addChainSync st { opts with potentialRelayChains := none } resolverId).2) := by
  unfold addChainSync
  cases hst : st.instanceStatus <;> simp only [hst] <;> try rfl
  cases hcs : opts.chainSpec <;> simp only [hcs] <;> try rfl
  cases hmp : sanitizeJsonRpcMaxPendingRequests opts.jsonRpcMaxPendingRequests <;>
    simp only [hmp] <;> try rfl
  cases hms : sanitizeJsonRpcMaxSubscriptions opts.jsonRpcMaxSubscriptions <;>
    simp only [hms] <;> try rfl
  cases hdb : sanitizeDatabaseContent opts.databaseContent <;>
    simp only [hdb] <;> rfl

/-- C6: the entries of potentialRelayChains that do not currently map to a
live chain id in the weak handle table are silently omitted from the
relay-chain id list passed to the engine, entries that do map are passed
through in order, and the presence of dead entries never makes the
addChain call fail (the error outcome is exactly the one of the same call
without potentialRelayChains). -/
theorem relay_chain_dead_handles_dropped (chainIds : List (ℕ × ℕ))
    (handles : List ℕ) (st : ClientState) (opts : AddChainOptions)
    (resolverId : ℕ) :
    computeRelayChainIds chainIds handles
      = handles.filterMap (fun h => assocLookup chainIds h)
    ∧ (∀ pre post h, assocLookup chainIds h = none →
        computeRelayChainIds chainIds (pre ++ h :: post)
          = computeRelayChainIds chainIds (pre ++ post))
    ∧ (∀ p e,
        (addChainSync st { opts with potentialRelayChains := some p } resolverId).2
            = .error e
        ↔ (addChainSync st { opts with potentialRelayChains := none } resolverId).2
            = .error e)
    ∧ ∀ p cmd,
        (addChainSync st { opts with potentialRelayChains := some p } resolverId).2
            = .ok cmd →
        cmd.potentialRelayChains
          = p.filterMap (fun h => assocLookup st.chainIds h) := by
  refine ⟨computeRelayChainIds_eq_filterMap chainIds handles, ?_, ?_, ?_⟩
  · intro pre post h hnone
    simp [computeRelayChainIds_eq_filterMap, List.filterMap_append, hnone]
  · intro p e
    rw [addChainSync_relay_map st opts resolverId (some p)]
    cases hbase :
        (addChainSync st { opts with potentialRelayChains := none } resolverId).2 <;>
      simp [Except.map]
  · intro p cmd hok
    rw [addChainSync_relay_map st opts resolverId (some p)] at hok
    cases hbase :
        (addChainSync st { opts with potentialRelayChains := none } resolverId).2 <;>
      rw [hbase] at hok <;> simp [Except.map] at hok
    rw [← hok]
    simp [computeRelayChainIds_eq_filterMap]

/-- Witness for C6: handle 1 maps to chain 5, handle 2 is dead and is
dropped from the computed relay list. -/
theorem relay_chain_dead_handles_dropped_witness :
    computeRelayChainIds [(1, 5)] [1, 2]
      = [1, 2].filterMap (fun h => assocLookup [(1, 5)] h) :=
  (relay_chain_dead_handles_dropped [(1, 5)] [1, 2]
    { instanceStatus := .ready, chainIds := [], connections := [],
      addChainResults := [], onExecutorShutdownOrWasmPanicSet := false,
      chains := [] }
    { chainSpec := .str "X", databaseContent := .undef,
      potentialRelayChains := none, disableJsonRpc := false,
      jsonRpcMaxPendingRequests := none, jsonRpcMaxSubscriptions := none }
    0).1

/-- In a ready state with the chain present and JSON-RPC enabled, repeated
iterations of the nextJsonRpcResponse loop return the queued responses in
order: n iterations return the first n queued messages. -/
theorem iterMessages_take (st : ClientState) (chainId : ℕ) (waiters : List ℕ)
    (hchain : assocLookup st.chains chainId = some waiters)
    (hready : st.instanceStatus = .ready) :
    ∀ n q, iterMessages st chainId false n q = q.take n := by
  intro n
  induction n with
  | zero => intro q; simp [iterMessages]
  | succ n ih =>
      intro q
      cases q with
      | nil => simp [iterMessages, nextJsonRpcResponseIter, hchain, hready]
      | cons m rest =>
          simp [iterMessages, nextJsonRpcResponseIter, hchain, hready, ih]

/-- C7: one iteration of nextJsonRpcResponse fails when the chain was
removed, else fails when JSON-RPC is disabled, else fails with the terminal
error when the instance is destroyed, otherwise pops the response queue
non-blockingly and returns the head if present, else registers the caller
as a waiter at the back of the chain's waiter list and suspends; iterating
in the good state returns every queued response exactly once and in
order. -/
theorem nextJsonRpcResponse_loop (st : ClientState) (chainId : ℕ)
    (q : List String) (waiters : List ℕ) (waiterId : ℕ) (dis : Bool)
    (e : TerminalError) :
    (assocLookup st.chains chainId = none →
       nextJsonRpcResponseIter st q chainId dis waiterId
         = (.fail .alreadyDestroyed, st, q))
    ∧ (assocLookup st.chains chainId = some waiters → dis = true →
       nextJsonRpcResponseIter st q chainId dis waiterId
         = (.fail .jsonRpcDisabled, st, q))
    ∧ (assocLookup st.chains chainId = some waiters → dis = false →
       st.instanceStatus = .destroyed e →
       nextJsonRpcResponseIter st q chainId dis waiterId
         = (.fail e.toThrown, st, q))
    ∧ (assocLookup st.chains chainId = some waiters → dis = false →
       st.instanceStatus = .ready →
       (∀ m rest, q = m :: rest →
          nextJsonRpcResponseIter st q chainId dis waiterId
            = (.message m, st, rest))
       ∧ (q = [] →
          nextJsonRpcResponseIter st q chainId dis waiterId
            = (.suspend,
               { st with chains := assocSet st.chains chainId (waiters ++ [waiterId]) },
               []))
       ∧ ∀ n, iterMessages st chainId dis n q = q.take n) := by
  refine ⟨?_, ?_, ?_, ?_⟩
  · intro hnone
    simp [nextJsonRpcResponseIter, hnone]
  · intro hchain hdis
    simp [nextJsonRpcResponseIter, hchain, hdis]
  · intro hchain hdis hdest
    simp [nextJsonRpcResponseIter, hchain, hdis, hdest]
  · intro hchain hdis hready
    refine ⟨?_, ?_, ?_⟩
    · intro m rest hq
      simp [nextJsonRpcResponseIter, hchain, hdis, hready, hq]
    · intro hq
      simp [nextJsonRpcResponseIter, hchain, hdis, hready, hq]
    · intro n
      rw [hdis]
      exact iterMessages_take st chainId waiters hchain hready n q

/-- Witness for C7: a two-message queue is drained in order, exactly
once. -/
theorem nextJsonRpcResponse_loop_witness :
    iterMessages
        { instanceStatus := .ready, chainIds := [], connections := [],
          addChainResults := [], onExecutorShutdownOrWasmPanicSet := false,
          chains := [(5, [])] }
        5 false 2 ["ping", "pong"]
      = ["ping", "pong"] := by
  have h := (nextJsonRpcResponse_loop
    { instanceStatus := .ready, chainIds := [], connections := [],
      addChainResults := [], onExecutorShutdownOrWasmPanicSet := false,
      chains := [(5, [])] }
    5 ["ping", "pong"] [] 0 false .alreadyDestroyed).2.2.2 rfl rfl rfl
  exact h.2.2 2

/-- Deleting a key from an association list makes its lookup fail. -/
theorem assocLookup_assocDelete {α : Type} (l : List (ℕ × α)) (k : ℕ) :
    assocLookup (assocDelete l k) k = none := by
  induction l with
  | nil => rfl
  | cons p rest ih =>
      by_cases h : p.1 = k
      · simp only [assocDelete, List.filter_cons] at ih ⊢
        simp only [h]
        simp [ih]
      · simp only [assocDelete, assocLookup, List.filter_cons] at ih ⊢
        simp [List.find?, h, ih]

/-- C8: sendJsonRpc on a destroyed instance fails with the instance's
terminal error (never a generic internal fault), after the chain's removal
it fails with the AlreadyDestroyedError, the full-queue status code 1 from
the engine surfaces as the distinct retryable QueueFullError, status code 0
succeeds, and any other non-zero status code is an internal fault. -/
theorem sendJsonRpc_error_conditions (st : ClientState) (chainId : ℕ)
    (dis : Bool) (rv : ℕ) (e : TerminalError) :
    (st.instanceStatus = .destroyed e →
       sendJsonRpc st chainId dis rv = .error e.toThrown)
    ∧ (∀ m, e.toThrown ≠ .generic m)
    ∧ (∀ handleId st2 acts,
        removeChain st handleId chainId = .ok (st2, acts) →
        sendJsonRpc st2 chainId dis rv = .error .alreadyDestroyed)
    ∧ (st.instanceStatus = .ready → assocLookup st.chains chainId = none →
        sendJsonRpc st chainId dis rv = .error .alreadyDestroyed)
    ∧ (st.instanceStatus = .ready → (assocLookup st.chains chainId).isSome →
        dis = false → rv = 1 → sendJsonRpc st chainId dis rv = .error .queueFull)
    ∧ (st.instanceStatus = .ready → (assocLookup st.chains chainId).isSome →
        dis = false → rv = 0 → sendJsonRpc st chainId dis rv = .ok ())
    ∧ (st.instanceStatus = .ready → (assocLookup st.chains chainId).isSome →
        dis = false → 2 ≤ rv →
        sendJsonRpc st chainId dis rv
          = .error (.generic
              ("Internal error: unknown json_rpc_send error code: " ++ toString rv))) := by
  refine ⟨?_, ?_, ?_, ?_, ?_, ?_, ?_⟩
  · intro hdest
    simp [sendJsonRpc, hdest]
  · intro m
    cases e <;> simp [TerminalError.toThrown]
  · intro handleId st2 acts hrm
    unfold removeChain at hrm
    cases hst : st.instanceStatus <;> simp only [hst] at hrm <;> try simp at hrm
    cases hch : assocLookup st.chains chainId <;>
      simp only [hch] at hrm <;> try simp at hrm
    obtain ⟨h2, -⟩ := hrm
    rw [← h2]
    simp [sendJsonRpc, hst, assocLookup_assocDelete]
  · intro hready hnone
    simp [sendJsonRpc, hready, hnone]
  · intro hready hsome hdis hrv
    rw [hrv]
    unfold sendJsonRpc
    simp [hready, hdis, Option.isNone_iff_eq_none, Option.isSome_iff_ne_none.mp hsome]
  · intro hready hsome hdis hrv
    rw [hrv]
    unfold sendJsonRpc
    simp [hready, hdis, Option.isNone_iff_eq_none, Option.isSome_iff_ne_none.mp hsome]
  · intro hready hsome hdis hrv
    unfold sendJsonRpc
    match rv, hrv with
    | n + 2, _ =>
      simp [hready, hdis, Option.isNone_iff_eq_none,
            Option.isSome_iff_ne_none.mp hsome]

/-- Witness for C8 at concrete states: queue-full surfacing and the
post-removal rejection. -/
theorem sendJsonRpc_error_conditions_witness :
    sendJsonRpc
        { instanceStatus := .ready, chainIds := [], connections := [],
          addChainResults := [], onExecutorShutdownOrWasmPanicSet := false,
          chains := [(5, [])] }
        5 false 1
      = .error .queueFull := by
  have h := (sendJsonRpc_error_conditions
    { instanceStatus := .ready, chainIds := [], connections := [],
      addChainResults := [], onExecutorShutdownOrWasmPanicSet := false,
      chains := [(5, [])] }
    5 false 1 .alreadyDestroyed).2.2.2.2.1 rfl (by decide) rfl rfl
  exact h

/-- C9: Chain.remove on a ready instance with the chain present wakes every
pending waiter of the chain in order, detaches the handle from the weak
side table, removes the chain from the registry, and issues the
remove-chain command; a second remove on the same handle fails with the
AlreadyDestroyedError, and no wake-up can be delivered for that chain id
afterwards (the json-rpc-responses-non-empty handler finds no chain entry
and wakes nobody). -/
theorem chain_remove_spec (st : ClientState) (handleId chainId : ℕ)
    (waiters : List ℕ)
    (hready : st.instanceStatus = .ready)
    (hchain : assocLookup st.chains chainId = some waiters) :
    ∃ st2, removeChain st handleId chainId
        = .ok (st2, waiters.map Action.wakeWaiter ++ [Action.removeChainCmd chainId])
      ∧ assocLookup st2.chainIds handleId = none
      ∧ assocLookup st2.chains chainId = none
      ∧ st2.instanceStatus = .ready
      ∧ removeChain st2 handleId chainId = .error .alreadyDestroyed
      ∧ processJsonRpcResponsesNonEmpty st2 chainId = none := by
  refine ⟨{ st with chainIds := assocDelete st.chainIds handleId
                    chains := assocDelete st.chains chainId }, ?_, ?_, ?_, hready, ?_, ?_⟩
  · simp [removeChain, hready, hchain]
  · exact assocLookup_assocDelete st.chainIds handleId
  · exact assocLookup_assocDelete st.chains chainId
  · simp [removeChain, hready, assocLookup_assocDelete]
  · simp [processJsonRpcResponsesNonEmpty, assocLookup_assocDelete]

/-- Witness for C9: removing chain 5 with one pending waiter. -/
theorem chain_remove_spec_witness :
    ∃ st2, removeChain
        { instanceStatus := .ready, chainIds := [(1, 5)], connections := [],
          addChainResults := [], onExecutorShutdownOrWasmPanicSet := false,
          chains := [(5, [4])] }
        1 5
        = .ok (st2, [Action.wakeWaiter 4, Action.removeChainCmd 5])
      ∧ removeChain st2 1 5 = .error .alreadyDestroyed := by
  obtain ⟨st2, h1, -, -, -, h5, -⟩ := chain_remove_spec
    { instanceStatus := .ready, chainIds := [(1, 5)], connections := [],
      addChainResults := [], onExecutorShutdownOrWasmPanicSet := false,
      chains := [(5, [4])] }
    1 5 [4] rfl (by decide)
  exact ⟨st2, h1, h5⟩

/-- A ready state with one connection, one pending addChain resolver and
one chain with one suspended waiter, used to evaluate the crash path on a
concrete input. -/
def panicExampleState : ClientState :=
  { instanceStatus := .ready, chainIds := [(1, 5)], connections := [7],
    addChainResults := [3], onExecutorShutdownOrWasmPanicSet := false,
    chains := [(5, [0])] }

/-- C2 counterexample: after a wasm-panic the pending waiter of chain 5 is
woken, but its next loop iteration rejects with the AlreadyDestroyedError
and not with the terminal crash error, because the crash handler clears
the chain registry before the woken waiter re-checks the state. -/
theorem crash_waiter_error_counterexample :
    (processWasmPanic panicExampleState "boom").1.instanceStatus
        = .destroyed (.crash "boom")
    ∧ Action.wakeWaiter 0 ∈ (processWasmPanic panicExampleState "boom").2
    ∧ (nextJsonRpcResponseIter
         (processWasmPanic panicExampleState "boom").1 [] 5 false 0).1
        = .fail .alreadyDestroyed
    ∧ (NextIterResult.fail .alreadyDestroyed
        ≠ .fail ((TerminalError.crash "boom").toThrown)) := by decide

/-- C2 (amended): after a wasm-panic event is processed the instance is
destroyed with the crash error, every pending addChain resolver is
rejected with the Smoldot-has-crashed failure, every connection in the
table has reset invoked exactly once and the table is cleared, and every
chain waiter is woken and its loop settles: the woken iteration rejects
with the AlreadyDestroyedError (the chain registry is cleared before the
waiter re-checks, so the observed error is not the crash error). -/
theorem crash_settles_everything (st : ClientState) (msg : String)
    (hconn : st.connections.Nodup) :
    (processWasmPanic st msg).1.instanceStatus = .destroyed (.crash msg)
    ∧ (processWasmPanic st msg).1.connections = []
    ∧ (processWasmPanic st msg).1.addChainResults = []
    ∧ (processWasmPanic st msg).1.chains = []
    ∧ (∀ cid : ℕ,
        (processWasmPanic st msg).2.count (Action.connReset cid)
          = st.connections.count cid)
    ∧ (∀ cid ∈ st.connections,
        (processWasmPanic st msg).2.count (Action.connReset cid) = 1)
    ∧ (∀ rid ∈ st.addChainResults,
        Action.resolveAddChain rid (.failure "Smoldot has crashed")
          ∈ (processWasmPanic st msg).2)
    ∧ (∀ c ∈ st.chains, ∀ w ∈ c.2,
        Action.wakeWaiter w ∈ (processWasmPanic st msg).2)
    ∧ (∀ cid q dis wid,
        (nextJsonRpcResponseIter (processWasmPanic st msg).1 q cid dis wid).1
          = .fail .alreadyDestroyed) := by
  have hcount : ∀ cid : ℕ,
      (processWasmPanic st msg).2.count (Action.connReset cid)
        = st.connections.count cid := by
    intro cid
    simp only [processWasmPanic, List.count_append]
    have h1 : (st.connections.map Action.connReset).count (Action.connReset cid)
        = st.connections.count cid :=
      List.count_map_of_injective st.connections Action.connReset
        (fun a b hab => by injection hab) cid
    have h2 : (st.addChainResults.map
        (fun r => Action.resolveAddChain r (.failure "Smoldot has crashed"))).count
          (Action.connReset cid) = 0 := by
      rw [List.count_eq_zero]
      simp
    have h3 : ((st.chains.map (fun c => c.2.map Action.wakeWaiter)).flatten).count
        (Action.connReset cid) = 0 := by
      rw [List.count_eq_zero]
      simp only [List.mem_flatten, List.mem_map, not_exists, not_and]
      rintro l ⟨c, -, rfl⟩ hmem
      simp at hmem
    have h4 : ([Action.invokeShutdownCallback]).count (Action.connReset cid) = 0 := by
      rw [List.count_eq_zero]
      simp
    rw [h1, h2, h3, h4]
    omega
  refine ⟨rfl, rfl, rfl, rfl, hcount, ?_, ?_, ?_, ?_⟩
  · intro cid hmem
    rw [hcount cid]
    exact List.count_eq_one_of_mem hconn hmem
  · intro rid hmem
    have hin : Action.resolveAddChain rid (.failure "Smoldot has crashed")
        ∈ st.addChainResults.map
            (fun r => Action.resolveAddChain r (.failure "Smoldot has crashed")) :=
      List.mem_map_of_mem _ hmem
    simp only [processWasmPanic, List.mem_append]
    tauto
  · intro c hc w hw
    have hin : Action.wakeWaiter w
        ∈ (st.chains.map (fun c => c.2.map Action.wakeWaiter)).flatten :=
      List.mem_flatten.mpr ⟨c.2.map Action.wakeWaiter,
        List.mem_map_of_mem _ hc, List.mem_map_of_mem _ hw⟩
    simp only [processWasmPanic, List.mem_append]
    tauto
  · intro cid q dis wid
    simp [nextJsonRpcResponseIter, processWasmPanic, assocLookup]

/-- Witness for C2 (amended) at the concrete example state. -/
theorem crash_settles_everything_witness :
    (processWasmPanic
        { instanceStatus := .ready, chainIds := [(1, 5)], connections := [7],
          addChainResults := [3], onExecutorShutdownOrWasmPanicSet := false,
          chains := [(5, [0])] } "boom").1.instanceStatus
      = .destroyed (.crash "boom") :=
  (crash_settles_everything
    { instanceStatus := .ready, chainIds := [(1, 5)], connections := [7],
      addChainResults := [3], onExecutorShutdownOrWasmPanicSet := false,
      chains := [(5, [0])] }
    "boom" (by decide)).1

/-- C3: when terminate is in progress and a crash event arrives before the
shutdown completion is observed, the resumed terminate does not overwrite
the crash error, so the terminal error ends up as the crash's error and
not the generic AlreadyDestroyedError; more generally, once the status is
destroyed with some terminal error, the terminate-completion and
init-completion steps preserve that error exactly, every other operation
of the model leaves the destroyed status (with its error) in place or
rejects, the status never returns to a live state, and the only step that
replaces the error is the crash handler itself. -/
theorem terminate_crash_race (st : ClientState) (msg : String)
    (e : TerminalError) (hready : st.instanceStatus = .ready) :
    (∃ st1 acts1, terminateFirstHalf st = .ok (st1, acts1)
      ∧ (terminateSecondHalf (processWasmPanic st1 msg).1).1.instanceStatus
          = .destroyed (.crash msg))
    ∧ ∀ s : ClientState, s.instanceStatus = .destroyed e →
        (terminateSecondHalf s).1.instanceStatus = .destroyed e
        ∧ (initReadyContinuation s).instanceStatus = .destroyed e
        ∧ (processExecutorShutdown s).1.instanceStatus = .destroyed e
        ∧ (∀ o, (processAddChainResult s o).1.instanceStatus = .destroyed e)
        ∧ (∀ cid r, processJsonRpcResponsesNonEmpty s cid = some r →
            r.1.instanceStatus = .destroyed e)
        ∧ (∀ opts rid, (addChainSync s opts rid).1.instanceStatus = .destroyed e)
        ∧ (∀ hid cid, removeChain s hid cid = .error e.toThrown)
        ∧ terminateFirstHalf s = .error e.toThrown
        ∧ (processWasmPanic s msg).1.instanceStatus = .destroyed (.crash msg) := by
  constructor
  · refine ⟨{ st with onExecutorShutdownOrWasmPanicSet := true },
            [Action.shutdownExecutorCmd], ?_, ?_⟩
    · simp [terminateFirstHalf, hready]
    · simp [processWasmPanic, terminateSecondHalf]
  · intro s hdest
    refine ⟨?_, ?_, ?_, ?_, ?_, ?_, ?_, ?_, rfl⟩
    · simp [terminateSecondHalf, hdest]
    · simp [initReadyContinuation, hdest]
    · simp [processExecutorShutdown, hdest]
    · intro o
      unfold processAddChainResult
      cases s.addChainResults <;> simp [hdest]
    · intro cid r hsome
      unfold processJsonRpcResponsesNonEmpty at hsome
      cases hch : assocLookup s.chains cid <;> rw [hch] at hsome <;>
        simp at hsome
      rw [← hsome]
      simpa using hdest
    · intro opts rid
      unfold addChainSync
      simp [hdest]
    · intro hid cid
      simp [removeChain, hdest]
    · simp [terminateFirstHalf, hdest]

/-- Witness for C3: the race on a concrete ready state leaves the crash
error in place. -/
theorem terminate_crash_race_witness :
    ∃ st1 acts1,
      terminateFirstHalf
          { instanceStatus := .ready, chainIds := [], connections := [],
            addChainResults := [], onExecutorShutdownOrWasmPanicSet := false,
            chains := [] }
        = .ok (st1, acts1)
      ∧ (terminateSecondHalf (processWasmPanic st1 "boom").1).1.instanceStatus
          = .destroyed (.crash "boom") :=
  (terminate_crash_race
    { instanceStatus := .ready, chainIds := [], connections := [],
      addChainResults := [], onExecutorShutdownOrWasmPanicSet := false,
      chains := [] }
    "boom" .alreadyDestroyed rfl).1

end Smoldot
